import Mathlib

/-!
Verification development for the DigiVac Quantum UI core: the RS-232
protocol layer (`src/devices/rs232_device.py`), the simulated device
(`src/devices/simulated_device.py`), and the polling engine
(`src/model/model.py`).

Python strings are embedded as `List Char`; Python exceptions as
`Except`-style results threaded with explicit state.  Machine floats in
the protocol layer are modelled exactly as rationals (`ℚ`): every claim
below concerns parsing structure and never binary rounding.
-/

namespace Digivac

/-! ## Python string primitives -/

/-- The whitespace set of Python `str.strip()`. -/
def pyIsSpace (c : Char) : Bool :=
  c == ' ' || c == '\t' || c == '\n' || c == '\r' || c == '\x0b' || c == '\x0c'

/-- Drop matching characters from the end of a list. -/
def rdropWhile (p : Char → Bool) (l : List Char) : List Char :=
  (l.reverse.dropWhile p).reverse

/-- Python `str.strip()`: remove leading and trailing whitespace. -/
def pyStrip (l : List Char) : List Char :=
  rdropWhile pyIsSpace (l.dropWhile pyIsSpace)

/-- Python `str.upper()` on one ASCII character. -/
def pyUpperChar (c : Char) : Char :=
  if 'a' ≤ c ∧ c ≤ 'z' then Char.ofNat (c.toNat - 32) else c

/-- Python `str.upper()` (ASCII range, which is all the protocol uses). -/
def pyUpper (l : List Char) : List Char := l.map pyUpperChar

/-- Python `pat in s` substring containment. -/
def containsSub (pat : List Char) : List Char → Bool
  | [] => pat.isEmpty
  | c :: rest => pat.isPrefixOf (c :: rest) || containsSub pat rest

/-- Fuel-driven decimal rendering (the fuel only bounds recursion depth;
`n + 1` units always suffice, as a number has at most `n + 1` digits). -/
def natDigitsAux : Nat → Nat → List Char
  | 0, _ => []
  | fuel + 1, n =>
    if n < 10 then [Char.ofNat (48 + n)]
    else natDigitsAux fuel (n / 10) ++ [Char.ofNat (48 + n % 10)]

/-- Decimal rendering of a natural number, as Python `str(int)` produces
for the non-negative integers used as device addresses. -/
def natDigits (n : Nat) : List Char := natDigitsAux (n + 1) n

/-! ## Transport Framer (`rs232_device.py` lines 12, 37–39, 96–108)

`_TERMINATOR = "\\r\n"` in the Python source is the three-character
sequence backslash, `r`, line-feed. -/

/-- `_TERMINATOR`: backslash, the letter `r`, then a line feed. -/
def TERMINATOR : List Char := ['\\', 'r', '\n']

/-- `RS232Device._format`: prepend `@<address>` and append the terminator. -/
def formatCmd (address : Nat) (payload : List Char) : List Char :=
  '@' :: natDigits address ++ payload ++ TERMINATOR

/-- The address-echo stripping step of `_clean_response`: if the line
starts with `@`, drop the `@` and the following run of decimal digits. -/
def stripAddr : List Char → List Char
  | '@' :: rest => rest.dropWhile Char.isDigit
  | l => l

/-- `RS232Device._clean_response`: `line.rstrip("\\")`, then strip a
leading `@<digits>` address echo if present. -/
def cleanResponse (line : List Char) : List Char :=
  stripAddr (rdropWhile (· == '\\') line)

/-! ## Numeric parsing (`rs232_device.py` lines 110–125)

`float(resp[3:])` is modelled exactly over `ℚ`: the claims concern which
strings parse and the decimal value they denote, never binary rounding. -/

/-- Value of one ASCII digit character. -/
def digitCharVal (c : Char) : Nat := c.toNat - 48

/-- Value of a run of ASCII digit characters, most significant first. -/
def decDigitsVal (ds : List Char) : Nat :=
  ds.foldl (fun a c => 10 * a + digitCharVal c) 0

/-- The ASCII character for a decimal digit. -/
def digitChar (d : Nat) : Char := Char.ofNat (48 + d)

/-- ASCII rendering of a digit list, most significant first. -/
def digitChars (ds : List Nat) : List Char := ds.map digitChar

/-- Value of a digit list, most significant first. -/
def natVal (ds : List Nat) : Nat := ds.foldl (fun a d => 10 * a + d) 0

/-- Exact power of ten with integer exponent. -/
def pow10 (e : ℤ) : ℚ :=
  if 0 ≤ e then ((10 ^ e.toNat : ℕ) : ℚ) else 1 / ((10 ^ (-e).toNat : ℕ) : ℚ)

/-- Exact value of a parsed decimal/scientific literal: sign, integer
digits, fraction digits, exponent sign and digits. -/
def sciValue (neg : Bool) (ids fds : List Char) (expNeg : Bool)
    (eds : List Char) : ℚ :=
  (if neg then -1 else 1) * ((decDigitsVal (ids ++ fds) : ℕ) : ℚ) *
    pow10 ((if expNeg then -(decDigitsVal eds : ℤ) else (decDigitsVal eds : ℤ)) -
      (fds.length : ℤ))

/-- Split an optional leading sign character. -/
def splitSign (s : List Char) : Bool × List Char :=
  match s with
  | c :: t => if c = '-' then (true, t) else if c = '+' then (false, t) else (false, s)
  | [] => (false, s)

/-- Exponent digits: a nonempty digit run that must consume all remaining
input. -/
def parseExpDigits (neg : Bool) (r : List Char) : Option (Bool × List Char) :=
  if r.takeWhile Char.isDigit = [] then none
  else if r.dropWhile Char.isDigit = [] then some (neg, r.takeWhile Char.isDigit)
  else none

/-- Exponent tail after `e`/`E`: optional sign, then digits. -/
def parseExpTail (r : List Char) : Option (Bool × List Char) :=
  match r with
  | c :: t =>
    if c = '+' then parseExpDigits false t
    else if c = '-' then parseExpDigits true t
    else parseExpDigits false r
  | [] => parseExpDigits false r

/-- After the mantissa: an optional `e`/`E` exponent, then end of input. -/
def pyFloatTail (neg : Bool) (ids fds r : List Char) : Option ℚ :=
  match r with
  | [] => some (sciValue neg ids fds false [])
  | c :: t =>
    if c = 'e' ∨ c = 'E' then
      match parseExpTail t with
      | some p => some (sciValue neg ids fds p.1 p.2)
      | none => none
    else none

/-- Mantissa of a Python float literal: integer digits, then an optional
`.` with fraction digits; at least one digit must be present. -/
def pyFloatMantissa (neg : Bool) (s1 : List Char) : Option ℚ :=
  let ids := s1.takeWhile Char.isDigit
  match s1.dropWhile Char.isDigit with
  | c :: t =>
    if c = '.' then
      if ids = [] ∧ t.takeWhile Char.isDigit = [] then none
      else pyFloatTail neg ids (t.takeWhile Char.isDigit) (t.dropWhile Char.isDigit)
    else if ids = [] then none
    else pyFloatTail neg ids [] (c :: t)
  | [] => if ids = [] then none else pyFloatTail neg ids [] []

/-- Models CPython `float()` on plain decimal/scientific literals
(optional surrounding whitespace, optional sign, digits with optional
fraction, optional exponent), returning the exact rational value.
`inf`/`nan` and digit-group underscores are outside the protocol's
vocabulary and are not modelled. -/
def pyFloat (s : List Char) : Option ℚ :=
  pyFloatMantissa (splitSign (pyStrip s)).1 (splitSign (pyStrip s)).2

/-! ### The grammar of decimal/scientific literals, for stating C2 -/

/-- An optional sign character: `none` absent, `some false` is `+`,
`some true` is `-`. -/
def signRender : Option Bool → List Char
  | none => []
  | some true => ['-']
  | some false => ['+']

/-- Abstract decimal/scientific literal: sign, integer digits, optional
fraction digits, optional exponent (uppercase flag, sign, digits). -/
structure SciNum where
  sign : Option Bool
  intDs : List Nat
  frac : Option (List Nat)
  exp : Option (Bool × Option Bool × List Nat)
deriving DecidableEq

/-- Fraction digits (empty when no decimal point). -/
def SciNum.fracDs (n : SciNum) : List Nat := n.frac.getD []

/-- Exponent digits (empty when no exponent). -/
def SciNum.expDs (n : SciNum) : List Nat :=
  match n.exp with
  | none => []
  | some (_, _, ds) => ds

/-- Whether the exponent carries an explicit minus sign. -/
def SciNum.expNeg (n : SciNum) : Bool :=
  match n.exp with
  | some (_, some true, _) => true
  | _ => false

/-- Rendering of the fraction part. -/
def fracRender : Option (List Nat) → List Char
  | none => []
  | some ds => '.' :: digitChars ds

/-- Rendering of the exponent part. -/
def expRender : Option (Bool × Option Bool × List Nat) → List Char
  | none => []
  | some (upper, es, ds) =>
    (if upper then 'E' else 'e') :: (signRender es ++ digitChars ds)

/-- The literal without its sign. -/
def SciNum.renderBody (n : SciNum) : List Char :=
  digitChars n.intDs ++ (fracRender n.frac ++ expRender n.exp)

/-- The concrete text of the literal. -/
def SciNum.render (n : SciNum) : List Char :=
  signRender n.sign ++ n.renderBody

/-- Well-formedness: nonempty integer digits, all digits below ten,
nonempty exponent digits when an exponent is present. -/
def SciNum.wf (n : SciNum) : Bool :=
  !n.intDs.isEmpty && n.intDs.all (· < 10) && n.fracDs.all (· < 10) &&
    (match n.exp with
     | none => true
     | some (_, _, ds) => !ds.isEmpty && ds.all (· < 10))

/-- The exact value the literal denotes. -/
def SciNum.value (n : SciNum) : ℚ :=
  (if n.sign = some true then -1 else 1) *
    ((natVal (n.intDs ++ n.fracDs) : ℕ) : ℚ) *
    pow10 ((if n.expNeg then -(natVal n.expDs : ℤ) else (natVal n.expDs : ℤ)) -
      (n.fracDs.length : ℤ))

/-! ## Protocol errors (`base.py` `DeviceError`, message templates from
`rs232_device.py`) -/

/-- The `DeviceError` conditions the RS-232 adapter raises, one
constructor per message template in the source. -/
inductive DevErr
  /-- `"Serial port not open."` -/
  | notConnected
  /-- `"No response from device."` -/
  | noResponse
  /-- `"Unexpected response: <resp>"` -/
  | unexpectedResponse (resp : List Char)
  /-- `"Bad numeric value: <resp>"` -/
  | malformedValue (resp : List Char)
  /-- `"Failed to query pressure unit: <resp>"` -/
  | queryUnitFailed (resp : List Char)
  /-- `"Device on port <port>: Gauge did not switch to <target>"` -/
  | unitSwitchFailed (port : List Char) (target : List Char)
  /-- `"Device on port <port>: <inner>"` -/
  | wrapped (port : List Char) (inner : DevErr)
deriving DecidableEq

/-- The Python exception message each `DevErr` renders to. -/
def DevErr.message : DevErr → List Char
  | .notConnected => "Serial port not open.".data
  | .noResponse => "No response from device.".data
  | .unexpectedResponse r => "Unexpected response: ".data ++ r
  | .malformedValue r => "Bad numeric value: ".data ++ r
  | .queryUnitFailed r => "Failed to query pressure unit: ".data ++ r
  | .unitSwitchFailed port t =>
    "Device on port ".data ++ port ++ ": Gauge did not switch to ".data ++ t
  | .wrapped port e => "Device on port ".data ++ port ++ ": ".data ++ e.message

/-- The acknowledgment-parsing step of `RS232Device._query_numeric`
(lines 118–125): require the `ACK` tag, then parse the remainder as a
float; a parse failure yields the bad-numeric-value error. -/
def parseAckValue (resp : List Char) : Except DevErr ℚ :=
  if "ACK".data.isPrefixOf resp then
    match pyFloat (resp.drop 3) with
    | some q => .ok q
    | none => .error (.malformedValue resp)
  else .error (.unexpectedResponse resp)

/-! ## RS-232 device (`rs232_device.py`)

The pySerial handle is modelled as a half-duplex mock: a `script` lists,
write by write, the response lines the far side will emit; writes append
those lines to the `pending` input buffer and are logged in `written`.
The adapter lock serialises access in the source; the embedding is
sequential, so the lock has no observable effect.  `sleep` calls model
away.  Exceptions carry the state at the raise point, as in Python. -/

/-- The mock serial transport. -/
structure Serial where
  /-- `is_open` of the pySerial handle. -/
  isOpen : Bool
  /-- Lines buffered on the input side, oldest first (pre-`strip`). -/
  pending : List (List Char)
  /-- For each successive write, the lines the device emits in response. -/
  script : List (List (List Char))
  /-- Log of every write, oldest first. -/
  written : List (List Char)
deriving DecidableEq

/-- A write hands the command to the device, which appends its scripted
response lines to the input buffer. -/
def serialWrite (s : Serial) (msg : List Char) : Serial :=
  match s.script with
  | [] => { s with written := s.written ++ [msg] }
  | r :: rest =>
    { s with pending := s.pending ++ r, script := rest, written := s.written ++ [msg] }

/-- `readline`: pop the next buffered line, or the empty string after
the read timeout. -/
def serialReadline (s : Serial) : List Char × Serial :=
  match s.pending with
  | [] => ([], s)
  | l :: rest => (l, { s with pending := rest })

/-- `RS232Device`: port name, address, and the optional serial handle
(`self._ser`). -/
structure RS232Device where
  port : List Char
  address : Nat
  ser : Option Serial
deriving DecidableEq

/-- `RS232Device._write`: fail if no handle, else write and flush. -/
def RS232Device.write (d : RS232Device) (msg : List Char) :
    Except DevErr Unit × RS232Device :=
  match d.ser with
  | none => (.error .notConnected, d)
  | some s => (.ok (), { d with ser := some (serialWrite s msg) })

/-- `RS232Device._readline`: fail if no handle; read a line, strip it,
fail with the no-response error if it is empty. -/
def RS232Device.readline (d : RS232Device) :
    Except DevErr (List Char) × RS232Device :=
  match d.ser with
  | none => (.error .notConnected, d)
  | some s =>
    let r := serialReadline s
    let line := pyStrip r.1
    if line = [] then (.error .noResponse, { d with ser := some r.2 })
    else (.ok line, { d with ser := some r.2 })

/-- `RS232Device.disconnect`: close and drop the handle; never fails. -/
def RS232Device.disconnect (d : RS232Device) : RS232Device :=
  { d with ser := none }

/-- `RS232Device.is_connected`. -/
def RS232Device.is_connected (d : RS232Device) : Bool :=
  match d.ser with
  | none => false
  | some s => s.isOpen

/-- `if self._ser: self._ser.reset_input_buffer()` -/
def RS232Device.resetInput (d : RS232Device) : RS232Device :=
  match d.ser with
  | none => d
  | some s => { d with ser := some { s with pending := [] } }

/-- `RS232Device.send_command`: reset the input buffer, write the
pre-formatted command, wait, read one line. -/
def RS232Device.send_command (d : RS232Device) (cmd : List Char) :
    Except DevErr (List Char) × RS232Device :=
  match d.resetInput.write cmd with
  | (.error e, d1) => (.error e, d1)
  | (.ok _, d1) => d1.readline

/-- `RS232Device._query_numeric`: frame `<MN>?`, write, read, clean, and
parse the `ACK<value>` payload. -/
def RS232Device.query_numeric (d : RS232Device) (mnemonic : List Char) :
    Except DevErr ℚ × RS232Device :=
  match d.write (formatCmd d.address (mnemonic ++ ['?'])) with
  | (.error e, d1) => (.error e, d1)
  | (.ok _, d1) =>
    match d1.readline with
    | (.error e, d2) => (.error e, d2)
    | (.ok line, d2) => (parseAckValue (cleanResponse line), d2)

/-- `RS232Device.read_pressure`. -/
def RS232Device.read_pressure (d : RS232Device) : Except DevErr ℚ × RS232Device :=
  d.query_numeric ['P']

/-- `RS232Device.read_temperature`. -/
def RS232Device.read_temperature (d : RS232Device) :
    Except DevErr ℚ × RS232Device :=
  d.query_numeric ['T']

/-- A pressure/temperature pair, the `{"pressure": .., "temperature": ..}`
dict of `BaseDevice.query`. -/
structure Meas where
  pressure : ℚ
  temperature : ℚ
deriving DecidableEq

/-- `BaseDevice.query` for the RS-232 adapter: both reads in sequence,
failing on the first error. -/
def RS232Device.query (d : RS232Device) : Except DevErr Meas × RS232Device :=
  match d.read_pressure with
  | (.error e, d1) => (.error e, d1)
  | (.ok p, d1) =>
    match d1.read_temperature with
    | (.error e, d2) => (.error e, d2)
    | (.ok t, d2) => (.ok ⟨p, t⟩, d2)

/-- `RS232Device.get_pressure_unit`: frame `U?P`, send it, clean the
reply, require the `ACK` tag, and return the unit token uppercased. -/
def RS232Device.get_pressure_unit (d : RS232Device) :
    Except DevErr (List Char) × RS232Device :=
  match d.send_command (formatCmd d.address "U?P".data) with
  | (.error e, d1) => (.error e, d1)
  | (.ok resp, d1) =>
    let r := cleanResponse resp
    if "ACK".data.isPrefixOf r then (.ok (pyUpper (pyStrip (r.drop 3))), d1)
    else (.error (.queryUnitFailed r), d1)

/-- Step 3 of `RS232Device.set_pressure_unit`: drain up to two reply
lines, ignoring their content, stopping at the first read failure. -/
def RS232Device.drainTwo (d : RS232Device) : RS232Device :=
  match d.readline with
  | (.error _, da) => da
  | (.ok _, da) => (da.readline).2

/-- Steps 2–4 of `RS232Device.set_pressure_unit`: write `U!P,<target>`,
wait, drain up to two reply lines, then verify by re-querying the unit.
A mismatch raises the unit-switch error, which the surrounding `except`
block catches and wraps again with the port name (as the source does);
a failed verify query is wrapped the same way. -/
def RS232Device.unitWriteVerify (d : RS232Device) (target : List Char) :
    Except DevErr Unit × RS232Device :=
  match d.write (formatCmd d.address ("U!P,".data ++ target)) with
  | (.error e, d1) => (.error e, d1)
  | (.ok _, d1) =>
    let d2 := d1.drainTwo
    match d2.get_pressure_unit with
    | (.error e, d3) => (.error (.wrapped d3.port e), d3)
    | (.ok u, d3) =>
      if u ≠ target then
        (.error (.wrapped d3.port (.unitSwitchFailed d3.port target)), d3)
      else (.ok (), d3)

/-- `RS232Device.set_pressure_unit`: query the current unit (swallowing a
`DeviceError`), return at once if it already matches, else run the
write-then-verify sequence. -/
def RS232Device.set_pressure_unit (d : RS232Device) (unit : List Char) :
    Except DevErr Unit × RS232Device :=
  let target := pyUpper unit
  match d.get_pressure_unit with
  | (.ok u, d1) => if u = target then (.ok (), d1) else d1.unitWriteVerify target
  | (.error _, d1) => d1.unitWriteVerify target

/-- The write log of a device, empty when no handle is present. -/
def RS232Device.writtenLog (d : RS232Device) : List (List Char) :=
  match d.ser with
  | none => []
  | some s => s.written

/-! ## Simulated device (`simulated_device.py`)

`time.time()`, `random.random()` and the two transcendental functions
`10 ** (-(elapsed/120))` and `sin(elapsed/60)` are ambient inputs of a
poll; they are supplied by a `SimEnv` record (no claim depends on their
values).  Rendering a reading through an f-string float format is
floating-point behaviour outside the embedding, abstracted by
`fmtReading`. -/

/-- Ambient environment of one simulated poll. -/
structure SimEnv where
  /-- `10 ** (-(self._elapsed() / 120.0))`. -/
  decayPow : ℚ
  /-- `math.sin(self._elapsed() / 60.0)`. -/
  sinVal : ℚ
  /-- `random.random()`. -/
  rand : ℚ

/-- Placeholder rendering of `f"{value:.3e}"` / `f"{value:.2f}"`; the
digits themselves are float formatting, which no claim inspects. -/
def fmtReading (q : ℚ) : List Char := if q < 0 then ['-'] else []

/-- The single error the simulated adapter raises:
`RuntimeError("Not connected (simulation mode).")`. -/
inductive SimErr
  | notConnected
deriving DecidableEq

/-- `SimulatedDevice`: initial pressure, baseline temperature, noise
fraction, and the connected flag. -/
structure SimulatedDevice where
  start_pressure : ℚ
  temp : ℚ
  noise : ℚ
  connected : Bool

/-- `SimulatedDevice.disconnect`. -/
def SimulatedDevice.disconnect (d : SimulatedDevice) : SimulatedDevice :=
  { d with connected := false }

/-- `SimulatedDevice.is_connected`. -/
def SimulatedDevice.is_connected (d : SimulatedDevice) : Bool := d.connected

/-- `SimulatedDevice.read_pressure`: exponential decay with symmetric
jitter, floored at `1e-9`; not-connected check first. -/
def SimulatedDevice.read_pressure (d : SimulatedDevice) (env : SimEnv) :
    Except SimErr ℚ :=
  if d.connected then
    let base := d.start_pressure * env.decayPow
    let jitter := base * d.noise * (env.rand - 1/2)
    .ok (max (base + jitter) (1/1000000000))
  else .error .notConnected

/-- `SimulatedDevice.read_temperature`: baseline plus a `±0.5`
oscillation; not-connected check first. -/
def SimulatedDevice.read_temperature (d : SimulatedDevice) (env : SimEnv) :
    Except SimErr ℚ :=
  if d.connected then .ok (d.temp + (1/2) * env.sinVal)
  else .error .notConnected

/-- `BaseDevice.query` for the simulated adapter. -/
def SimulatedDevice.query (d : SimulatedDevice) (env : SimEnv) :
    Except SimErr Meas :=
  match d.read_pressure env with
  | .error e => .error e
  | .ok p =>
    match d.read_temperature env with
    | .error e => .error e
    | .ok t => .ok ⟨p, t⟩

/-- `SimulatedDevice.send_command`: echo a plausible response; commands
containing `P?` or `T?` go through the reads (and their connected
check), anything else is answered `ACKOK` unconditionally. -/
def SimulatedDevice.send_command (d : SimulatedDevice) (env : SimEnv)
    (cmd : List Char) : Except SimErr (List Char) :=
  if containsSub "P?".data cmd then
    match d.read_pressure env with
    | .error e => .error e
    | .ok p => .ok ("ACK".data ++ fmtReading p)
  else if containsSub "T?".data cmd then
    match d.read_temperature env with
    | .error e => .error e
    | .ok t => .ok ("ACK".data ++ fmtReading t)
  else .ok "ACKOK".data

/-! ## Polling engine (`model.py`)

The loop runs on a background thread; the embedding linearises one
engine's behaviour.  `query i` is the result of the `i`-th adapter
query, `stopReq i` the value the iteration-`i` check of the stop event
observes, and `fuel` bounds how many iterations are observed (a trace is
a finite prefix of the loop's behaviour; truncation only ever cuts whole
iterations).  The payload type `α` is opaque to the loop, exactly as the
measurement dict is to `_loop`. -/

instance {ε α : Type} [DecidableEq ε] [DecidableEq α] : DecidableEq (Except ε α)
  | .ok a, .ok b =>
    if h : a = b then isTrue (by rw [h]) else isFalse (by simp [h])
  | .ok _, .error _ => isFalse (by simp)
  | .error _, .ok _ => isFalse (by simp)
  | .error e, .error f =>
    if h : e = f then isTrue (by rw [h]) else isFalse (by simp [h])

/-- One observable action of the sampling loop: a callback invocation
(with its position in the subscriber list) or a recorder append. -/
inductive LoopEvent (α : Type)
  /-- `cb(data)` or `cb({"error": msg})` on subscriber `sub`. -/
  | deliver (sub : Nat) (msg : Except (List Char) α)
  /-- `self.logger.append(...)` for a successful sample. -/
  | record (m : α)
deriving DecidableEq

/-- Fan-out of one successful sample to `n` subscribers in registration
order, followed by the recorder append — the body of `_loop`'s success
path (lines 65–76). -/
def successBlock (n : Nat) (m : α) : List (LoopEvent α) :=
  ((List.range n).map fun j => LoopEvent.deliver j (.ok m)) ++ [LoopEvent.record m]

/-- Fan-out of the terminal `{"error": ...}` record to `n` subscribers in
registration order — the body of `_loop`'s failure path (lines 59–62). -/
def errorBlock (α : Type) (n : Nat) (e : List Char) : List (LoopEvent α) :=
  (List.range n).map fun j => LoopEvent.deliver j (.error e)

/-- `MeasurementModel._loop`: check the stop event; query; on failure
fan out the error record and break; on success fan out the measurement,
append to the recorder, sleep, repeat. -/
def loopEvents (query : Nat → Except (List Char) α) (stopReq : Nat → Bool)
    (n : Nat) : Nat → Nat → List (LoopEvent α)
  | _, 0 => []
  | i, fuel + 1 =>
    if stopReq i then []
    else
      match query i with
      | .error e => errorBlock α n e
      | .ok m => successBlock n m ++ loopEvents query stopReq n (i + 1) fuel

/-! ### Engine lifecycle (`model.py` lines 36–48)

`start`/`stop` manipulate the thread, the stop event and the adapter
connection; the embedding records the state after the call plus the
ordered list of effects the call performs.  `hasThread`/`threadAlive`
model `self._thread is not None` / `self._thread.is_alive()`; returning
from `join` means the sampling task has fully exited. -/

/-- Engine state visible to `start`/`stop`. -/
structure EngineState where
  /-- `self._thread is not None`. -/
  hasThread : Bool
  /-- the thread exists and `is_alive()`. -/
  threadAlive : Bool
  /-- `self._stop.is_set()`. -/
  stopFlag : Bool
  /-- `self.device.is_connected()`; `device.connect()` sets it,
  `device.disconnect()` clears it unconditionally (both adapters). -/
  connected : Bool
deriving DecidableEq

/-- The externally visible effects of `start`/`stop`. -/
inductive EngineStep
  | connectDev
  | clearStopFlag
  | launchThread
  | setStopFlag
  | joinThread
  | disconnectDev
deriving DecidableEq

/-- `MeasurementModel.start`: no-op when a live thread exists, else
connect the adapter, clear the stop event, and launch the loop thread. -/
def MeasurementModel.start (s : EngineState) : EngineState × List EngineStep :=
  if s.hasThread && s.threadAlive then (s, [])
  else (⟨true, true, false, true⟩,
    [.connectDev, .clearStopFlag, .launchThread])

/-- `MeasurementModel.stop`: set the stop event, join the thread if one
exists (returning only once it has exited), then disconnect the
adapter. -/
def MeasurementModel.stop (s : EngineState) : EngineState × List EngineStep :=
  ({ s with threadAlive := false, stopFlag := true, connected := false },
    [EngineStep.setStopFlag] ++
      (if s.hasThread then [EngineStep.joinThread] else []) ++
      [EngineStep.disconnectDev])

/-! ## Helper lemmas about the list primitives -/

theorem takeWhile_append_of_all {p : Char → Bool} {a b : List Char}
    (h : ∀ x ∈ a, p x = true) : (a ++ b).takeWhile p = a ++ b.takeWhile p := by
  induction a with
  | nil => simp
  | cons c t ih =>
    have hc : p c = true := h c (by simp)
    simp only [List.cons_append, List.takeWhile_cons, hc, if_true]
    rw [ih (fun x hx => h x (by simp [hx]))]

theorem dropWhile_append_of_all {p : Char → Bool} {a b : List Char}
    (h : ∀ x ∈ a, p x = true) : (a ++ b).dropWhile p = b.dropWhile p := by
  induction a with
  | nil => simp
  | cons c t ih =>
    have hc : p c = true := h c (by simp)
    simp only [List.cons_append, List.dropWhile_cons, hc, if_true]
    exact ih (fun x hx => h x (by simp [hx]))

theorem dropWhile_of_head_neg {p : Char → Bool} {l : List Char}
    (h : ∀ c, l.head? = some c → p c = false) : l.dropWhile p = l := by
  cases l with
  | nil => rfl
  | cons c t => simp [List.dropWhile_cons, h c rfl]

theorem takeWhile_of_head_neg {p : Char → Bool} {l : List Char}
    (h : ∀ c, l.head? = some c → p c = false) : l.takeWhile p = [] := by
  cases l with
  | nil => rfl
  | cons c t => simp [List.takeWhile_cons, h c rfl]

theorem rdropWhile_append_last {p : Char → Bool} {l : List Char} {c : Char}
    (h : p c = false) : rdropWhile p (l ++ [c]) = l ++ [c] := by
  unfold rdropWhile
  rw [List.reverse_append]
  simp [List.dropWhile_cons, h]

theorem takeWhile_of_all {p : Char → Bool} {l : List Char}
    (h : ∀ x ∈ l, p x = true) : l.takeWhile p = l := by
  induction l with
  | nil => rfl
  | cons c t ih =>
    simp only [List.takeWhile_cons, h c (by simp), if_true]
    rw [ih (fun x hx => h x (by simp [hx]))]

theorem dropWhile_of_all {p : Char → Bool} {l : List Char}
    (h : ∀ x ∈ l, p x = true) : l.dropWhile p = [] := by
  induction l with
  | nil => rfl
  | cons c t ih =>
    simp only [List.dropWhile_cons, h c (by simp), if_true]
    exact ih (fun x hx => h x (by simp [hx]))

theorem pyStrip_of_no_space {l : List Char}
    (h : ∀ c ∈ l, pyIsSpace c = false) : pyStrip l = l := by
  have hdrop : ∀ {m : List Char}, (∀ c ∈ m, pyIsSpace c = false) →
      m.dropWhile pyIsSpace = m := by
    intro m hm
    apply dropWhile_of_head_neg
    intro c hc
    cases m with
    | nil => cases hc
    | cons c' t => cases hc; exact hm _ (by simp)
  unfold pyStrip rdropWhile
  rw [hdrop h, hdrop (fun c hc => h c (List.mem_reverse.mp hc)),
    List.reverse_reverse]

theorem isDigit_ofNat_of_lt {m : Nat} (h : m < 10) :
    (Char.ofNat (48 + m)).isDigit = true := by
  interval_cases m <;> decide

theorem natDigitsAux_all_digit (fuel : Nat) :
    ∀ n, ∀ c ∈ natDigitsAux fuel n, c.isDigit = true := by
  induction fuel with
  | zero => intro n c hc; simp [natDigitsAux] at hc
  | succ fuel ih =>
    intro n c hc
    rw [natDigitsAux] at hc
    split at hc
    · simp only [List.mem_singleton] at hc
      subst hc
      exact isDigit_ofNat_of_lt (by assumption)
    · rw [List.mem_append] at hc
      rcases hc with hc | hc
      · exact ih (n / 10) c hc
      · simp only [List.mem_singleton] at hc
        subst hc
        exact isDigit_ofNat_of_lt (Nat.mod_lt _ (by omega))

theorem natDigits_all_digit (n : Nat) : ∀ c ∈ natDigits n, c.isDigit = true :=
  natDigitsAux_all_digit (n + 1) n

/-! ## Lemmas about the numeric grammar and `pyFloat` -/

theorem digitChar_isDigit {d : Nat} (h : d < 10) : (digitChar d).isDigit = true := by
  unfold digitChar
  exact isDigit_ofNat_of_lt h

theorem digitChar_not_space {d : Nat} (h : d < 10) :
    pyIsSpace (digitChar d) = false := by
  interval_cases d <;> decide

theorem digitChar_ne {d : Nat} (h : d < 10) {c : Char}
    (hc : c.isDigit = false) : ¬(digitChar d = c) := by
  intro heq
  have hd := digitChar_isDigit h
  rw [heq, hc] at hd
  cases hd

theorem digitCharVal_digitChar {d : Nat} (h : d < 10) :
    digitCharVal (digitChar d) = d := by
  interval_cases d <;> decide

theorem digitChars_all_digit {ds : List Nat} (h : ∀ d ∈ ds, d < 10) :
    ∀ c ∈ digitChars ds, c.isDigit = true := by
  intro c hc
  simp only [digitChars, List.mem_map] at hc
  obtain ⟨d, hd, rfl⟩ := hc
  exact digitChar_isDigit (h d hd)

theorem digitChars_ne_nil {ds : List Nat} (h : ds ≠ []) : digitChars ds ≠ [] := by
  simp [digitChars, h]

theorem takeWhile_digitChars {ds : List Nat} (h : ∀ d ∈ ds, d < 10)
    (r : List Char) :
    (digitChars ds ++ r).takeWhile Char.isDigit =
      digitChars ds ++ r.takeWhile Char.isDigit :=
  takeWhile_append_of_all (digitChars_all_digit h)

theorem dropWhile_digitChars {ds : List Nat} (h : ∀ d ∈ ds, d < 10)
    (r : List Char) :
    (digitChars ds ++ r).dropWhile Char.isDigit = r.dropWhile Char.isDigit :=
  dropWhile_append_of_all (digitChars_all_digit h)

theorem foldl_digitChars (ds : List Nat) :
    ∀ (_ : ∀ d ∈ ds, d < 10) (a : Nat),
      (digitChars ds).foldl (fun x c => 10 * x + digitCharVal c) a =
        ds.foldl (fun x d => 10 * x + d) a := by
  induction ds with
  | nil => intro _ a; rfl
  | cons d t ih =>
    intro h a
    simp only [digitChars, List.map_cons, List.foldl_cons]
    rw [digitCharVal_digitChar (h d (by simp))]
    exact ih (fun x hx => h x (by simp [hx])) _

theorem decDigitsVal_digitChars {ds : List Nat} (h : ∀ d ∈ ds, d < 10) :
    decDigitsVal (digitChars ds) = natVal ds :=
  foldl_digitChars ds h 0

theorem expHead_not_digit (u : Bool) :
    (if u then 'E' else 'e').isDigit = false := by
  cases u <;> decide

theorem parseExpDigits_digitChars (b : Bool) {eds : List Nat}
    (hne : eds ≠ []) (h10 : ∀ d ∈ eds, d < 10) :
    parseExpDigits b (digitChars eds) = some (b, digitChars eds) := by
  unfold parseExpDigits
  rw [takeWhile_of_all (digitChars_all_digit h10),
    dropWhile_of_all (digitChars_all_digit h10)]
  simp [digitChars_ne_nil hne]

theorem parseExpTail_signRender (es : Option Bool) {eds : List Nat}
    (hne : eds ≠ []) (h10 : ∀ d ∈ eds, d < 10) :
    parseExpTail (signRender es ++ digitChars eds) =
      some (es == some true, digitChars eds) := by
  cases es with
  | none =>
    simp only [signRender, List.nil_append]
    cases eds with
    | nil => cases hne rfl
    | cons e t =>
      show parseExpTail (digitChar e :: digitChars t) = _
      simp only [parseExpTail]
      rw [if_neg (digitChar_ne (h10 e (by simp)) (by decide)),
        if_neg (digitChar_ne (h10 e (by simp)) (by decide))]
      have heq : digitChar e :: digitChars t = digitChars (e :: t) := rfl
      rw [heq, parseExpDigits_digitChars false hne h10]
      rfl
  | some b =>
    cases b with
    | false =>
      show parseExpTail ('+' :: digitChars eds) = _
      simp only [parseExpTail]
      rw [if_pos trivial, parseExpDigits_digitChars false hne h10]
      rfl
    | true =>
      show parseExpTail ('-' :: digitChars eds) = _
      simp only [parseExpTail]
      rw [if_pos trivial, parseExpDigits_digitChars true hne h10]
      rfl

theorem pyFloatTail_expRender (neg : Bool) (ids fds : List Char)
    (u : Bool) (es : Option Bool) {eds : List Nat}
    (hne : eds ≠ []) (h10 : ∀ d ∈ eds, d < 10) :
    pyFloatTail neg ids fds (expRender (some (u, es, eds))) =
      some (sciValue neg ids fds (es == some true) (digitChars eds)) := by
  cases u with
  | false =>
    show pyFloatTail neg ids fds ('e' :: (signRender es ++ digitChars eds)) = _
    simp only [pyFloatTail]
    rw [if_pos (Or.inl trivial), parseExpTail_signRender es hne h10]
  | true =>
    show pyFloatTail neg ids fds ('E' :: (signRender es ++ digitChars eds)) = _
    simp only [pyFloatTail]
    rw [if_pos (Or.inr trivial), parseExpTail_signRender es hne h10]

theorem expRenderHead_ne_dot (u : Bool) : ¬((if u then 'E' else 'e') = '.') := by
  cases u <;> decide

theorem takeWhile_expRender (ex : Option (Bool × Option Bool × List Nat)) :
    (expRender ex).takeWhile Char.isDigit = [] := by
  cases ex with
  | none => rfl
  | some p =>
    obtain ⟨u, es, ds⟩ := p
    cases u <;> simp [expRender, List.takeWhile_cons]

theorem dropWhile_expRender (ex : Option (Bool × Option Bool × List Nat)) :
    (expRender ex).dropWhile Char.isDigit = expRender ex := by
  cases ex with
  | none => rfl
  | some p =>
    obtain ⟨u, es, ds⟩ := p
    cases u <;> simp [expRender, List.dropWhile_cons]

theorem expNeg_mk (sg : Option Bool) (ids : List Nat)
    (fr : Option (List Nat)) (u : Bool) (es : Option Bool) (eds : List Nat) :
    (SciNum.mk sg ids fr (some (u, es, eds))).expNeg = (es == some true) := by
  cases es with
  | none => rfl
  | some b => cases b <;> rfl

theorem pyFloatMantissa_renderBody (sg : Option Bool) (ids : List Nat)
    (fr : Option (List Nat)) (ex : Option (Bool × Option Bool × List Nat))
    (h : (SciNum.mk sg ids fr ex).wf = true) (neg : Bool) :
    pyFloatMantissa neg (SciNum.mk sg ids fr ex).renderBody =
      some (sciValue neg (digitChars ids)
        (digitChars (SciNum.mk sg ids fr ex).fracDs)
        (SciNum.mk sg ids fr ex).expNeg
        (digitChars (SciNum.mk sg ids fr ex).expDs)) := by
  have hids : ids ≠ [] := by
    intro hnil
    rw [hnil] at h
    simp [SciNum.wf] at h
  have h10i : ∀ d ∈ ids, d < 10 := by
    simp only [SciNum.wf, Bool.and_eq_true, List.all_eq_true,
      decide_eq_true_eq] at h
    exact h.1.1.2
  cases fr with
  | none =>
    cases ex with
    | none =>
      simp only [SciNum.renderBody, SciNum.fracDs, SciNum.expNeg, SciNum.expDs,
        fracRender, expRender, Option.getD_none, List.nil_append,
        List.append_nil]
      simp only [pyFloatMantissa, takeWhile_of_all (digitChars_all_digit h10i),
        dropWhile_of_all (digitChars_all_digit h10i)]
      rw [if_neg (digitChars_ne_nil hids)]
      rfl
    | some p =>
      obtain ⟨u, es, eds⟩ := p
      have heds2 : eds.isEmpty = false ∧ ∀ d ∈ eds, d < 10 := by
        simp only [SciNum.wf, Bool.and_eq_true, List.all_eq_true,
          Bool.not_eq_true', decide_eq_true_eq] at h
        exact h.2
      have heds : eds ≠ [] ∧ ∀ d ∈ eds, d < 10 := by
        refine ⟨?_, heds2.2⟩
        intro hnil
        rw [hnil] at heds2
        simp at heds2
      rw [expNeg_mk]
      simp only [SciNum.renderBody, SciNum.fracDs, SciNum.expDs, fracRender,
        Option.getD_none, List.nil_append]
      simp only [pyFloatMantissa, takeWhile_digitChars h10i,
        dropWhile_digitChars h10i, takeWhile_expRender, dropWhile_expRender]
      show (match expRender (some (u, es, eds)) with
        | c :: t =>
          if c = '.' then
            if digitChars ids ++ [] = [] ∧ t.takeWhile Char.isDigit = [] then none
            else pyFloatTail neg (digitChars ids ++ [])
              (t.takeWhile Char.isDigit) (t.dropWhile Char.isDigit)
          else if digitChars ids ++ [] = [] then none
          else pyFloatTail neg (digitChars ids ++ []) [] (c :: t)
        | [] => if digitChars ids ++ [] = [] then none
          else pyFloatTail neg (digitChars ids ++ []) [] []) = _
      show (if (if u then 'E' else 'e') = '.' then _ else _) = _
      rw [if_neg (expRenderHead_ne_dot u)]
      rw [if_neg (by simp [digitChars_ne_nil hids])]
      rw [List.append_nil]
      exact pyFloatTail_expRender neg (digitChars ids) [] u es heds.1 heds.2
  | some fds =>
    have h10f : ∀ d ∈ fds, d < 10 := by
      simp only [SciNum.wf, SciNum.fracDs, Option.getD_some, Bool.and_eq_true,
        List.all_eq_true, decide_eq_true_eq] at h
      exact h.1.2
    simp only [SciNum.renderBody, SciNum.fracDs, fracRender, Option.getD_some,
      List.cons_append]
    simp only [pyFloatMantissa, takeWhile_digitChars h10i,
      dropWhile_digitChars h10i]
    rw [show ('.' :: (digitChars fds ++ expRender ex)).takeWhile Char.isDigit
        = [] from by simp [List.takeWhile_cons],
      show ('.' :: (digitChars fds ++ expRender ex)).dropWhile Char.isDigit
        = '.' :: (digitChars fds ++ expRender ex) from by
        simp [List.dropWhile_cons]]
    show (if ('.' : Char) = '.' then _ else _) = _
    rw [if_pos rfl]
    rw [if_neg (by simp [digitChars_ne_nil hids])]
    rw [takeWhile_digitChars h10f, dropWhile_digitChars h10f,
      takeWhile_expRender, dropWhile_expRender]
    simp only [List.append_nil, SciNum.expDs]
    cases ex with
    | none =>
      simp only [SciNum.expNeg, SciNum.expDs]
      rfl
    | some p =>
      obtain ⟨u, es, eds⟩ := p
      have heds2 : eds.isEmpty = false ∧ ∀ d ∈ eds, d < 10 := by
        simp only [SciNum.wf, Bool.and_eq_true, List.all_eq_true,
          Bool.not_eq_true', decide_eq_true_eq] at h
        exact h.2
      have heds : eds ≠ [] ∧ ∀ d ∈ eds, d < 10 := by
        refine ⟨?_, heds2.2⟩
        intro hnil
        rw [hnil] at heds2
        simp at heds2
      rw [expNeg_mk]
      exact pyFloatTail_expRender neg (digitChars ids) (digitChars fds)
        u es heds.1 heds.2

theorem render_no_space (n : SciNum) (h : n.wf = true) :
    ∀ c ∈ n.render, pyIsSpace c = false := by
  obtain ⟨sg, ids, fr, ex⟩ := n
  have h10i : ∀ d ∈ ids, d < 10 := by
    simp only [SciNum.wf, Bool.and_eq_true, List.all_eq_true,
      decide_eq_true_eq] at h
    exact h.1.1.2
  have h10f : ∀ d ∈ (SciNum.mk sg ids fr ex).fracDs, d < 10 := by
    simp only [SciNum.wf, Bool.and_eq_true, List.all_eq_true,
      decide_eq_true_eq] at h
    exact h.1.2
  intro c hc
  simp only [SciNum.render, SciNum.renderBody, List.mem_append] at hc
  rcases hc with hc | hc | hc | hc
  · cases sg with
    | none => simp [signRender] at hc
    | some b =>
      cases b <;> simp only [signRender, List.mem_singleton] at hc <;>
        subst hc <;> decide
  · simp only [digitChars, List.mem_map] at hc
    obtain ⟨d, hd, rfl⟩ := hc
    exact digitChar_not_space (h10i d hd)
  · cases fr with
    | none => simp [fracRender] at hc
    | some fds =>
      simp only [fracRender, List.mem_cons] at hc
      rcases hc with rfl | hc
      · decide
      · simp only [digitChars, List.mem_map] at hc
        obtain ⟨d, hd, rfl⟩ := hc
        refine digitChar_not_space (h10f d ?_)
        simpa [SciNum.fracDs] using hd
  · cases ex with
      | none => simp [expRender] at hc
      | some p =>
        obtain ⟨u, es, eds⟩ := p
        have h10e : ∀ d ∈ eds, d < 10 := by
          simp only [SciNum.wf, Bool.and_eq_true, List.all_eq_true,
            decide_eq_true_eq] at h
          exact h.2.2
        simp only [expRender, List.mem_cons, List.mem_append] at hc
        rcases hc with rfl | hc | hc
        · cases u <;> decide
        · cases es with
          | none => simp [signRender] at hc
          | some b =>
            cases b <;> simp only [signRender, List.mem_singleton] at hc <;>
              subst hc <;> decide
        · simp only [digitChars, List.mem_map] at hc
          obtain ⟨d, hd, rfl⟩ := hc
          exact digitChar_not_space (h10e d hd)

theorem sciValue_value (sg : Option Bool) (ids : List Nat)
    (fr : Option (List Nat)) (ex : Option (Bool × Option Bool × List Nat))
    (h : (SciNum.mk sg ids fr ex).wf = true) :
    sciValue (sg == some true) (digitChars ids)
      (digitChars (SciNum.mk sg ids fr ex).fracDs)
      (SciNum.mk sg ids fr ex).expNeg
      (digitChars (SciNum.mk sg ids fr ex).expDs) =
      (SciNum.mk sg ids fr ex).value := by
  have h10i : ∀ d ∈ ids, d < 10 := by
    simp only [SciNum.wf, Bool.and_eq_true, List.all_eq_true,
      decide_eq_true_eq] at h
    exact h.1.1.2
  have h10f : ∀ d ∈ (SciNum.mk sg ids fr ex).fracDs, d < 10 := by
    simp only [SciNum.wf, Bool.and_eq_true, List.all_eq_true,
      decide_eq_true_eq] at h
    exact h.1.2
  have h10e : ∀ d ∈ (SciNum.mk sg ids fr ex).expDs, d < 10 := by
    cases ex with
    | none => simp [SciNum.expDs]
    | some p =>
      obtain ⟨u, es, eds⟩ := p
      simp only [SciNum.wf, Bool.and_eq_true, List.all_eq_true,
        decide_eq_true_eq] at h
      simpa [SciNum.expDs] using h.2.2
  have hIF : ∀ d ∈ ids ++ (SciNum.mk sg ids fr ex).fracDs, d < 10 := by
    intro d hd
    rcases List.mem_append.mp hd with hd | hd
    · exact h10i d hd
    · exact h10f d hd
  unfold sciValue SciNum.value
  rw [show digitChars ids ++ digitChars (SciNum.mk sg ids fr ex).fracDs =
      digitChars (ids ++ (SciNum.mk sg ids fr ex).fracDs) from by
    simp [digitChars]]
  rw [decDigitsVal_digitChars hIF, decDigitsVal_digitChars h10e]
  have hlen : (digitChars (SciNum.mk sg ids fr ex).fracDs).length =
      (SciNum.mk sg ids fr ex).fracDs.length := by simp [digitChars]
  rw [hlen]
  by_cases hsg : sg = some true
  · simp [hsg]
  · simp [hsg]

theorem digitChar_ne_sign {d : Nat} (h : d < 10) :
    ¬(digitChar d = '-') ∧ ¬(digitChar d = '+') :=
  ⟨digitChar_ne h (by decide), digitChar_ne h (by decide)⟩

/-- Parser correctness for `pyFloat` on the decimal/scientific grammar:
every well-formed literal parses to its exact value. -/
theorem pyFloat_render (n : SciNum) (h : n.wf = true) :
    pyFloat n.render = some n.value := by
  obtain ⟨sg, ids, fr, ex⟩ := n
  have hids : ids ≠ [] := by
    intro hnil
    rw [hnil] at h
    simp [SciNum.wf] at h
  have h10i : ∀ d ∈ ids, d < 10 := by
    simp only [SciNum.wf, Bool.and_eq_true, List.all_eq_true,
      decide_eq_true_eq] at h
    exact h.1.1.2
  unfold pyFloat
  rw [pyStrip_of_no_space (render_no_space _ h)]
  have hbody := pyFloatMantissa_renderBody sg ids fr ex h
  have hval := sciValue_value sg ids fr ex h
  cases sg with
  | none =>
    have hsplit : splitSign (SciNum.mk none ids fr ex).render =
        (false, (SciNum.mk none ids fr ex).renderBody) := by
      show splitSign ([] ++ (SciNum.mk none ids fr ex).renderBody) = _
      rw [List.nil_append]
      cases hi : ids with
      | nil => exact absurd hi hids
      | cons d t =>
        show splitSign (digitChar d :: (digitChars t ++ _)) = _
        have hd : d < 10 := h10i d (by rw [hi]; simp)
        simp only [splitSign, if_neg (digitChar_ne_sign hd).1,
          if_neg (digitChar_ne_sign hd).2]
        simp [SciNum.renderBody, hi, digitChars]
    rw [hsplit]
    rw [hbody false]
    simpa using hval
  | some b =>
    cases b with
    | true =>
      have hsplit : splitSign (SciNum.mk (some true) ids fr ex).render =
          (true, (SciNum.mk (some true) ids fr ex).renderBody) := by
        show splitSign ('-' :: (SciNum.mk (some true) ids fr ex).renderBody) = _
        simp [splitSign]
      rw [hsplit, hbody true]
      simpa using hval
    | false =>
      have hsplit : splitSign (SciNum.mk (some false) ids fr ex).render =
          (false, (SciNum.mk (some false) ids fr ex).renderBody) := by
        show splitSign ('+' :: (SciNum.mk (some false) ids fr ex).renderBody) = _
        simp [splitSign]
      rw [hsplit, hbody false]
      simpa using hval

theorem isPrefixOf_append_self (a b : List Char) :
    a.isPrefixOf (a ++ b) = true := by
  induction a with
  | nil => simp [List.isPrefixOf]
  | cons c t ih => simp [List.isPrefixOf, ih]

/-! ## Claim C2: acknowledgment parsing -/

/-- C2: acknowledgment parsing fails with the unexpected-response error
for every payload that does not start with the `ACK` tag, and succeeds
on every payload of the form `ACK` followed by a decimal/scientific
numeric literal, returning exactly the value of that literal (the float
is modelled by its exact rational value). -/
theorem parseAck_spec :
    (∀ p : List Char, "ACK".data.isPrefixOf p = false →
      parseAckValue p = .error (.unexpectedResponse p)) ∧
    (∀ n : SciNum, n.wf = true →
      parseAckValue ("ACK".data ++ n.render) = .ok n.value) := by
  constructor
  · intro p hp
    unfold parseAckValue
    rw [hp]
    simp
  · intro n hn
    unfold parseAckValue
    rw [isPrefixOf_append_self]
    have hdrop : ("ACK".data ++ n.render).drop 3 = n.render := rfl
    rw [if_pos rfl, hdrop, pyFloat_render n hn]

/-- C2 witness: the spec's own example `"ACK7.4601E+02"` succeeds with
the value of `7.4601E+02`, and a `NAK` payload fails as unexpected. -/
theorem parseAck_spec_witness :
    parseAckValue ("ACK".data ++
        (SciNum.mk none [7] (some [4, 6, 0, 1])
          (some (true, some false, [0, 2]))).render) =
      .ok (SciNum.mk none [7] (some [4, 6, 0, 1])
          (some (true, some false, [0, 2]))).value ∧
    (SciNum.mk none [7] (some [4, 6, 0, 1])
        (some (true, some false, [0, 2]))).render = "7.4601E+02".data ∧
    parseAckValue "NAK746.01".data =
      .error (.unexpectedResponse "NAK746.01".data) :=
  ⟨parseAck_spec.2 _ (by decide), by decide, parseAck_spec.1 _ (by decide)⟩

/-- The value of the spec's example literal is 746.01 exactly. -/
theorem ack_example_value :
    (SciNum.mk none [7] (some [4, 6, 0, 1])
        (some (true, some false, [0, 2]))).value = 746.01 := by
  norm_num [SciNum.value, SciNum.fracDs, SciNum.expDs, SciNum.expNeg,
    natVal, pow10, Int.toNat]
  simp

/-! ## Claim C3: framing round trip -/

/-- C3 counterexample: the cleaned framed line keeps the terminator, so
the round trip does not recover the payload; and a payload starting
with a decimal digit additionally loses its leading digits to the
address-echo stripper. -/
theorem clean_format_keeps_terminator :
    cleanResponse (formatCmd 1 ['P', '?']) = ['P', '?'] ++ TERMINATOR ∧
    cleanResponse (formatCmd 1 ['P', '?']) ≠ ['P', '?'] ∧
    cleanResponse (formatCmd 1 ['1', 'P', '?']) = ['P', '?'] ++ TERMINATOR ∧
    cleanResponse (formatCmd 1 ['1', 'P', '?']) ≠ ['1', 'P', '?'] := by
  refine ⟨?_, ?_, ?_, ?_⟩ <;> decide

/-- C3 (amended): for a valid address and a payload that does not begin
with a decimal digit, cleaning the framed command recovers the payload
followed by the (unstripped) terminator. -/
theorem clean_format_roundtrip (address : Nat) (payload : List Char)
    (h1 : 1 ≤ address) (h2 : address ≤ 253)
    (hp : ∀ c, payload.head? = some c → c.isDigit = false) :
    cleanResponse (formatCmd address payload) = payload ++ TERMINATOR := by
  have hshape : formatCmd address payload =
      ('@' :: (natDigits address ++ payload ++ ['\\', 'r'])) ++ ['\n'] := by
    simp [formatCmd, TERMINATOR]
  have hkeep : rdropWhile (· == '\\') (formatCmd address payload) =
      formatCmd address payload := by
    rw [hshape, rdropWhile_append_last (by decide), ← hshape]
  unfold cleanResponse
  rw [hkeep]
  have hfmt : formatCmd address payload =
      '@' :: (natDigits address ++ (payload ++ TERMINATOR)) := by
    simp [formatCmd]
  rw [hfmt]
  show (natDigits address ++ (payload ++ TERMINATOR)).dropWhile Char.isDigit =
    payload ++ TERMINATOR
  rw [dropWhile_append_of_all (natDigits_all_digit address)]
  apply dropWhile_of_head_neg
  intro c hc
  cases payload with
  | nil =>
    simp only [List.nil_append, TERMINATOR] at hc
    cases hc
    decide
  | cons c' t =>
    simp only [List.cons_append, List.head?_cons] at hc
    cases hc
    exact hp _ rfl

/-- C3 witness: the amended law evaluated at address 5, payload `P?`. -/
theorem clean_format_roundtrip_witness :
    cleanResponse (formatCmd 5 ['P', '?']) = ['P', '?'] ++ TERMINATOR := by
  have h := clean_format_roundtrip 5 ['P', '?'] (by decide) (by decide)
    (by intro c hc; cases hc; decide)
  exact h

/-! ## Claims C1 and C9: sampling-loop trace structure -/

theorem loopEvents_decomp {α : Type} (query : Nat → Except (List Char) α)
    (stopReq : Nat → Bool) (n : Nat) :
    ∀ (fuel i : Nat), ∃ ms : List α,
      loopEvents query stopReq n i fuel = (ms.map (successBlock n)).flatten ∨
      ∃ e, loopEvents query stopReq n i fuel =
        (ms.map (successBlock n)).flatten ++ errorBlock α n e := by
  intro fuel
  induction fuel with
  | zero => intro i; exact ⟨[], Or.inl rfl⟩
  | succ fuel ih =>
    intro i
    rw [loopEvents]
    by_cases hs : stopReq i
    · rw [if_pos hs]
      exact ⟨[], Or.inl rfl⟩
    · rw [if_neg hs]
      cases hq : query i with
      | error e => exact ⟨[], Or.inr ⟨e, by simp⟩⟩
      | ok m =>
        obtain ⟨ms, hms⟩ := ih (i + 1)
        rcases hms with hms | ⟨e, hms⟩
        · exact ⟨m :: ms, Or.inl (by rw [hms]; simp)⟩
        · exact ⟨m :: ms, Or.inr ⟨e, by rw [hms]; simp⟩⟩

theorem mem_successJoin_no_error {α : Type} {n : Nat} {ms : List α}
    {ev : LoopEvent α} (hev : ev ∈ (ms.map (successBlock n)).flatten) :
    ∀ (j : Nat) (e : List Char), ev ≠ .deliver j (.error e) := by
  rw [List.mem_flatten] at hev
  obtain ⟨l, hl, hev⟩ := hev
  rw [List.mem_map] at hl
  obtain ⟨m, _, rfl⟩ := hl
  simp only [successBlock, List.mem_append, List.mem_map,
    List.mem_singleton, List.mem_range] at hev
  intro j e
  rcases hev with ⟨j', _, rfl⟩ | rfl <;> simp

theorem mem_errorBlock {α : Type} {n : Nat} {e : List Char}
    {ev : LoopEvent α} (hev : ev ∈ errorBlock α n e) :
    ∃ j' < n, ev = .deliver j' (.error e) := by
  simp only [errorBlock, List.mem_map, List.mem_range] at hev
  obtain ⟨j', hj', rfl⟩ := hev
  exact ⟨j', hj', rfl⟩

/-- C1: the loop's emissions are error-terminal — once some subscriber
has been handed an `{"error": ...}` record, every later event of the
same engine run is a delivery of that same error record to a later
subscriber; in particular no Measurement delivery and no recorder
append ever follows, and no second distinct error is ever fanned out. -/
theorem loop_error_terminal {α : Type} (query : Nat → Except (List Char) α)
    (stopReq : Nat → Bool) (n fuel i : Nat) (pre post : List (LoopEvent α))
    (j : Nat) (e : List Char)
    (hsplit : loopEvents query stopReq n i fuel =
      pre ++ LoopEvent.deliver j (.error e) :: post) :
    ∀ ev ∈ post, ∃ j', ev = LoopEvent.deliver j' (.error e) := by
  obtain ⟨ms, hms⟩ := loopEvents_decomp query stopReq n fuel i
  rcases hms with hms | ⟨e', hms⟩
  · rw [hsplit] at hms
    have hx : LoopEvent.deliver j (.error e) ∈ (ms.map (successBlock n)).flatten := by
      rw [← hms]
      simp
    exact absurd rfl (mem_successJoin_no_error hx j e)
  · rw [hsplit] at hms
    rcases List.append_eq_append_iff.mp hms with ⟨a', _, hpost⟩ | ⟨c', _, hE⟩
    · cases a' with
      | nil =>
        rw [List.nil_append] at hpost
        have hxE : LoopEvent.deliver j (.error e) ∈ errorBlock α n e' := by
          rw [← hpost]
          simp
        obtain ⟨j0, _, hj0⟩ := mem_errorBlock hxE
        have hee : e' = e := by
          cases hj0
          rfl
        intro ev hev
        have hevE : ev ∈ errorBlock α n e' := by
          rw [← hpost]
          simp [hev]
        obtain ⟨j', _, rfl⟩ := mem_errorBlock hevE
        exact ⟨j', by rw [hee]⟩
      | cons b bs =>
        rw [List.cons_append] at hpost
        have hb : b = LoopEvent.deliver j (.error e) := (List.cons.injEq _ _ _ _ ▸ hpost).1.symm
        have hbJ : b ∈ (ms.map (successBlock n)).flatten := by
          rename_i hJ
          rw [hJ]
          simp
        rw [hb] at hbJ
        exact absurd rfl (mem_successJoin_no_error hbJ j e)
    · have hxE : LoopEvent.deliver j (.error e) ∈ errorBlock α n e' := by
        rw [hE]
        simp
      obtain ⟨j0, _, hj0⟩ := mem_errorBlock hxE
      have hee : e' = e := by
        cases hj0
        rfl
      intro ev hev
      have hevE : ev ∈ errorBlock α n e' := by
        rw [hE]
        simp [hev]
      obtain ⟨j', _, rfl⟩ := mem_errorBlock hevE
      exact ⟨j', by rw [hee]⟩

/-- C1 witness: a two-subscriber engine whose first query fails delivers
the error to subscriber 0 and then only the same error to subscriber 1. -/
theorem loop_error_terminal_witness :
    ∃ j' : Nat, LoopEvent.deliver (α := Nat) 1 (Except.error "boom".data) =
      LoopEvent.deliver j' (.error "boom".data) :=
  loop_error_terminal (α := Nat) (fun _ => .error "boom".data)
    (fun _ => false) 2 3 0 []
    [LoopEvent.deliver 1 (.error "boom".data)] 0 "boom".data (by rfl)
    (LoopEvent.deliver 1 (.error "boom".data)) (by simp)

/-- C9: every trace of the sampling loop is a concatenation of
per-sample blocks — for each successful sample, deliveries to
subscribers `0, …, n-1` in registration order followed immediately by
the recorder append — optionally terminated by one error fan-out. -/
theorem loop_fanout_then_record {α : Type} (query : Nat → Except (List Char) α)
    (stopReq : Nat → Bool) (n fuel i : Nat) :
    ∃ ms : List α,
      loopEvents query stopReq n i fuel = (ms.map (successBlock n)).flatten ∨
      ∃ e, loopEvents query stopReq n i fuel =
        (ms.map (successBlock n)).flatten ++ errorBlock α n e :=
  loopEvents_decomp query stopReq n fuel i

/-! ## Claims C4 and C5: engine lifecycle -/

/-- C4: after `stop()` returns, the sampling thread has exited and the
engine's adapter-connected flag is false, whatever state the loop was
in; the effect trace always ends with the disconnect, and when a thread
exists the join strictly precedes it.  Both adapters' `disconnect`
leave `is_connected()` false. -/
theorem stop_spec (s : EngineState) :
    (MeasurementModel.stop s).1.threadAlive = false ∧
    (MeasurementModel.stop s).1.connected = false ∧
    (MeasurementModel.stop s).2.getLast? = some .disconnectDev ∧
    (s.hasThread = true → (MeasurementModel.stop s).2 =
      [.setStopFlag, .joinThread, .disconnectDev]) ∧
    (∀ sd : SimulatedDevice, sd.disconnect.is_connected = false) ∧
    (∀ rd : RS232Device, rd.disconnect.is_connected = false) := by
  refine ⟨rfl, rfl, ?_, ?_, fun sd => rfl, fun rd => rfl⟩
  · unfold MeasurementModel.stop
    cases hs : s.hasThread <;> simp [hs]
  · intro h
    unfold MeasurementModel.stop
    rw [h]
    rfl

/-- C4 witness: stopping a running engine gives the exact step order
set-flag, join, disconnect, and a disconnected final state. -/
theorem stop_spec_witness :
    (MeasurementModel.stop ⟨true, true, false, true⟩).1.connected = false ∧
    (MeasurementModel.stop ⟨true, true, false, true⟩).2 =
      [.setStopFlag, .joinThread, .disconnectDev] :=
  ⟨(stop_spec _).2.1, (stop_spec _).2.2.2.1 rfl⟩

/-- C5: `start()` on an engine whose sampling thread exists and is alive
is a no-op — the state is unchanged and no effect (no connect, no
thread launch) is performed. -/
theorem start_idempotent (s : EngineState) (h1 : s.hasThread = true)
    (h2 : s.threadAlive = true) :
    MeasurementModel.start s = (s, []) := by
  unfold MeasurementModel.start
  rw [h1, h2]
  rfl

/-- C5 witness: starting a running engine changes nothing. -/
theorem start_idempotent_witness :
    MeasurementModel.start ⟨true, true, false, true⟩ =
      (⟨true, true, false, true⟩, []) :=
  start_idempotent _ rfl rfl

/-! ## Claims C6 and C10: not-connected guards -/

/-- C6 counterexample: a disconnected simulated device still answers a
generic raw command with `ACKOK` instead of failing with the
not-connected error, so not every command operation requires a
connection. -/
theorem simulated_send_disconnected_ok :
    SimulatedDevice.send_command ⟨1/10, 22, 1/20, false⟩ ⟨1, 0, 1/2⟩
      "RESET".data = .ok "ACKOK".data := by
  rfl

/-- C6 (amended): `readPressure`, `readTemperature` and `query` fail
with the not-connected error on both adapters when disconnected
(simulated: connected flag unset; RS-232: no serial handle), and
`sendCommand` does too on the RS-232 adapter — but on the simulated
adapter only for commands containing `P?` or `T?`. -/
theorem notConnected_guards :
    (∀ (d : SimulatedDevice) (env : SimEnv), d.connected = false →
      d.read_pressure env = .error .notConnected ∧
      d.read_temperature env = .error .notConnected ∧
      d.query env = .error .notConnected ∧
      (∀ cmd, containsSub "P?".data cmd = true →
        d.send_command env cmd = .error .notConnected) ∧
      (∀ cmd, containsSub "P?".data cmd = false →
        containsSub "T?".data cmd = true →
        d.send_command env cmd = .error .notConnected)) ∧
    (∀ r : RS232Device, r.ser = none →
      (∀ m, r.write m = (.error .notConnected, r)) ∧
      r.read_pressure = (.error .notConnected, r) ∧
      r.read_temperature = (.error .notConnected, r) ∧
      r.query = (.error .notConnected, r) ∧
      (∀ c, r.send_command c = (.error .notConnected, r))) := by
  constructor
  · intro d env h
    refine ⟨?_, ?_, ?_, ?_, ?_⟩
    · simp [SimulatedDevice.read_pressure, h]
    · simp [SimulatedDevice.read_temperature, h]
    · simp [SimulatedDevice.query, SimulatedDevice.read_pressure, h]
    · intro cmd hc
      simp [SimulatedDevice.send_command, hc, SimulatedDevice.read_pressure, h]
    · intro cmd hp ht
      simp [SimulatedDevice.send_command, hp, ht,
        SimulatedDevice.read_temperature, h]
  · intro r h
    have hw : ∀ m, r.write m = (.error .notConnected, r) := by
      intro m
      simp [RS232Device.write, h]
    refine ⟨hw, ?_, ?_, ?_, ?_⟩
    · simp [RS232Device.read_pressure, RS232Device.query_numeric, hw]
    · simp [RS232Device.read_temperature, RS232Device.query_numeric, hw]
    · simp [RS232Device.query, RS232Device.read_pressure,
        RS232Device.read_temperature, RS232Device.query_numeric, hw]
    · intro c
      have hreset : r.resetInput = r := by
        simp [RS232Device.resetInput, h]
      simp [RS232Device.send_command, hreset, hw]

/-- C6 witness: both disconnected adapters refuse a pressure read, and
the simulated adapter refuses a raw command that embeds a `P?` query. -/
theorem notConnected_guards_witness :
    SimulatedDevice.read_pressure ⟨1, 22, 0, false⟩ ⟨1, 0, 0⟩ =
      .error .notConnected ∧
    SimulatedDevice.send_command ⟨1, 22, 0, false⟩ ⟨1, 0, 0⟩ "@1P?".data =
      .error .notConnected ∧
    RS232Device.read_pressure ⟨"COM1".data, 1, none⟩ =
      (.error .notConnected, ⟨"COM1".data, 1, none⟩) :=
  ⟨(notConnected_guards.1 ⟨1, 22, 0, false⟩ ⟨1, 0, 0⟩ rfl).1,
    (notConnected_guards.1 ⟨1, 22, 0, false⟩ ⟨1, 0, 0⟩ rfl).2.2.2.1
      "@1P?".data (by decide),
    (notConnected_guards.2 ⟨"COM1".data, 1, none⟩ rfl).2.1⟩

/-- C10: any raw command containing neither `P?` nor `T?` is answered
with the fixed `ACKOK` response, whatever the connection state. -/
theorem send_command_ackok (d : SimulatedDevice) (env : SimEnv)
    (cmd : List Char) (h1 : containsSub "P?".data cmd = false)
    (h2 : containsSub "T?".data cmd = false) :
    d.send_command env cmd = .ok "ACKOK".data := by
  simp [SimulatedDevice.send_command, h1, h2]

/-- C10 witness: a disconnected simulated device answers `STATUS` with
`ACKOK`. -/
theorem send_command_ackok_witness :
    SimulatedDevice.send_command ⟨2, 25, 0, false⟩ ⟨0, 0, 0⟩ "STATUS".data =
      .ok "ACKOK".data :=
  send_command_ackok ⟨2, 25, 0, false⟩ ⟨0, 0, 0⟩ "STATUS".data
    (by decide) (by decide)

/-! ## Claims C7 and C8: unit negotiation

State-bookkeeping lemmas about the RS-232 operations first: every
operation leaves `port` and `address` untouched, keeps the handle
present, and the write log only ever grows. -/

theorem write_some (d : RS232Device) {s : Serial} (h : d.ser = some s)
    (m : List Char) :
    d.write m = (.ok (), { d with ser := some (serialWrite s m) }) := by
  simp [RS232Device.write, h]

theorem serialWrite_written (s : Serial) (m : List Char) :
    (serialWrite s m).written = s.written ++ [m] := by
  cases hsc : s.script <;> simp [serialWrite, hsc]

theorem write_port (d : RS232Device) (m : List Char) :
    (d.write m).2.port = d.port ∧ (d.write m).2.address = d.address := by
  cases h : d.ser <;> simp [RS232Device.write, h]

theorem readline_state (d : RS232Device) :
    (d.readline).2.port = d.port ∧ (d.readline).2.address = d.address ∧
    (d.readline).2.writtenLog = d.writtenLog ∧
    (∀ s, d.ser = some s → ∃ s', (d.readline).2.ser = some s' ∧
      s'.written = s.written ∧ s'.script = s.script) := by
  cases h : d.ser with
  | none => simp [RS232Device.readline, h]
  | some s =>
    obtain ⟨so, sp, sc, sw⟩ := s
    cases sp with
    | nil =>
      have hstrip : pyStrip [] = [] := rfl
      refine ⟨?_, ?_, ?_, ?_⟩ <;>
        simp [RS232Device.readline, serialReadline, h, hstrip,
          RS232Device.writtenLog]
    | cons l rest =>
      refine ⟨?_, ?_, ?_, ?_⟩ <;>
          simp only [RS232Device.readline, serialReadline, h] <;>
          split <;>
        simp [RS232Device.writtenLog, h]

theorem drainTwo_state (d : RS232Device) :
    (d.drainTwo).port = d.port ∧ (d.drainTwo).address = d.address ∧
    (d.drainTwo).writtenLog = d.writtenLog ∧
    (∀ s, d.ser = some s → ∃ s', (d.drainTwo).ser = some s' ∧
      s'.written = s.written ∧ s'.script = s.script) := by
  unfold RS232Device.drainTwo
  cases hr : d.readline with
  | mk res da =>
    have h1 := readline_state d
    rw [hr] at h1
    cases res with
    | error e => exact ⟨h1.1, h1.2.1, h1.2.2.1, h1.2.2.2⟩
    | ok l =>
      have h2 := readline_state da
      refine ⟨by rw [h2.1, h1.1], by rw [h2.2.1, h1.2.1],
        by rw [h2.2.2.1, h1.2.2.1], ?_⟩
      intro s hs
      obtain ⟨s1, hs1, hw1, hc1⟩ := h1.2.2.2 s hs
      obtain ⟨s2, hs2, hw2, hc2⟩ := h2.2.2.2 s1 hs1
      exact ⟨s2, hs2, by rw [hw2, hw1], by rw [hc2, hc1]⟩

theorem resetInput_state (d : RS232Device) :
    d.resetInput.port = d.port ∧ d.resetInput.address = d.address ∧
    d.resetInput.writtenLog = d.writtenLog ∧
    (∀ s, d.ser = some s →
      d.resetInput.ser = some { s with pending := [] }) := by
  cases h : d.ser <;>
    simp [RS232Device.resetInput, h, RS232Device.writtenLog]

theorem send_command_state (d : RS232Device) {s : Serial} (h : d.ser = some s)
    (cmd : List Char) :
    (d.send_command cmd).2.port = d.port ∧
    (d.send_command cmd).2.address = d.address ∧
    (d.send_command cmd).2.writtenLog = d.writtenLog ++ [cmd] ∧
    (∃ s', (d.send_command cmd).2.ser = some s') := by
  have hreset := resetInput_state d
  have hser1 : d.resetInput.ser = some { s with pending := [] } :=
    hreset.2.2.2 s h
  have hw := write_some d.resetInput hser1 cmd
  unfold RS232Device.send_command
  rw [hw]
  have hrl := readline_state
    { d.resetInput with ser := some (serialWrite { s with pending := [] } cmd) }
  have hwl : ({ d.resetInput with
      ser := some (serialWrite { s with pending := [] } cmd) } :
        RS232Device).writtenLog =
      d.writtenLog ++ [cmd] := by
    show (serialWrite { s with pending := [] } cmd).written = _
    rw [serialWrite_written]
    show ({ s with pending := [] } : Serial).written ++ [cmd] = _
    have : d.writtenLog = s.written := by simp [RS232Device.writtenLog, h]
    rw [this]
  refine ⟨by rw [hrl.1]; exact hreset.1, by rw [hrl.2.1]; exact hreset.2.1,
    by rw [hrl.2.2.1]; exact hwl, ?_⟩
  obtain ⟨s', hs', _, _⟩ := hrl.2.2.2 _ rfl
  exact ⟨s', hs'⟩

theorem get_pressure_unit_state (d : RS232Device) {s : Serial}
    (h : d.ser = some s) :
    (d.get_pressure_unit).2.port = d.port ∧
    (d.get_pressure_unit).2.address = d.address ∧
    (d.get_pressure_unit).2.writtenLog =
      d.writtenLog ++ [formatCmd d.address "U?P".data] ∧
    (∃ s', (d.get_pressure_unit).2.ser = some s') := by
  have hsc := send_command_state d h (formatCmd d.address "U?P".data)
  unfold RS232Device.get_pressure_unit
  cases hr : d.send_command (formatCmd d.address "U?P".data) with
  | mk res d1 =>
    rw [hr] at hsc
    cases res with
    | error e => exact hsc
    | ok resp =>
      dsimp only
      refine ⟨?_, ?_, ?_, ?_⟩
      · split <;> exact hsc.1
      · split <;> exact hsc.2.1
      · split <;> exact hsc.2.2.1
      · obtain ⟨s', hs'⟩ := hsc.2.2.2
        exact ⟨s', by split <;> exact hs'⟩

theorem unitWriteVerify_spec (d : RS232Device) (target : List Char) {s : Serial}
    (hser : d.ser = some s) :
    formatCmd d.address ("U!P,".data ++ target) ∈
      (d.unitWriteVerify target).2.writtenLog ∧
    ((d.unitWriteVerify target).1 = .ok () ↔
      (((d.write (formatCmd d.address
        ("U!P,".data ++ target))).2.drainTwo).get_pressure_unit).1 =
        .ok target) ∧
    (∀ u, (((d.write (formatCmd d.address
        ("U!P,".data ++ target))).2.drainTwo).get_pressure_unit).1 = .ok u →
      u ≠ target →
      (d.unitWriteVerify target).1 =
        .error (.wrapped d.port (.unitSwitchFailed d.port target))) := by
  have hwr := write_some d hser (formatCmd d.address ("U!P,".data ++ target))
  have hdwlog : ({ d with ser := some (serialWrite s
      (formatCmd d.address ("U!P,".data ++ target))) } :
        RS232Device).writtenLog =
      d.writtenLog ++ [formatCmd d.address ("U!P,".data ++ target)] := by
    show (serialWrite s _).written = _
    rw [serialWrite_written]
    congr 1
    simp [RS232Device.writtenLog, hser]
  have hdrain := drainTwo_state ({ d with ser := some (serialWrite s
    (formatCmd d.address ("U!P,".data ++ target))) })
  obtain ⟨sd, hsd, _, _⟩ := hdrain.2.2.2 _ rfl
  have hq := get_pressure_unit_state _ hsd
  unfold RS232Device.unitWriteVerify
  rw [hwr]
  dsimp only
  cases hg : (({ d with ser := some (serialWrite s
      (formatCmd d.address ("U!P,".data ++ target))) } :
        RS232Device).drainTwo).get_pressure_unit with
  | mk resq d3 =>
    rw [hg] at hq
    have hmem : formatCmd d.address ("U!P,".data ++ target) ∈ d3.writtenLog := by
      rw [hq.2.2.1, hdrain.2.2.1, hdwlog]
      simp
    have hport3 : d3.port = d.port := by
      rw [hq.1, hdrain.1]
    cases resq with
    | error e2 =>
      dsimp only
      refine ⟨hmem, ?_, ?_⟩
      · constructor
        · intro hok
          cases hok
        · intro hok
          cases hok
      · intro u hu
        cases hu
    | ok u0 =>
      dsimp only
      by_cases he : u0 = target
      · subst he
        rw [if_neg (by simp)]
        refine ⟨hmem, by simp, ?_⟩
        intro u hu hne
        cases hu
        exact absurd rfl hne
      · rw [if_pos (by simp [he])]
        refine ⟨hmem, ?_, ?_⟩
        · constructor
          · intro hok
            cases hok
          · intro hok
            cases hok
            exact absurd rfl he
        · intro u hu _
          rw [hport3]

/-- C8: when the pre-check unit query already reports the target unit,
`set_pressure_unit` succeeds immediately, the final adapter state is
exactly the post-query state (so no further command is written), and
the only write performed is the initial `U?P` query frame. -/
theorem set_unit_idempotent (d : RS232Device) (unit : List Char)
    (d' : RS232Device)
    (hq : d.get_pressure_unit = (.ok (pyUpper unit), d')) :
    d.set_pressure_unit unit = (.ok (), d') ∧
    (∀ s, d.ser = some s →
      d'.writtenLog = d.writtenLog ++ [formatCmd d.address "U?P".data]) := by
  constructor
  · unfold RS232Device.set_pressure_unit
    rw [hq]
    dsimp only
    rw [if_pos rfl]
  · intro s hs
    have h := (get_pressure_unit_state d hs).2.2.1
    rw [hq] at h
    exact h

/-- C8 witness: a gauge already reporting TORR makes
`set_pressure_unit("torr")` succeed with only the query frame written. -/
theorem set_unit_idempotent_witness :
    RS232Device.set_pressure_unit
        ⟨"COM1".data, 253, some ⟨true, [], [["@253ACKTORR\\".data]], []⟩⟩
        "torr".data =
      (.ok (), ⟨"COM1".data, 253,
        some ⟨true, [], [], ["@253U?P\\r\n".data]⟩⟩) ∧
    RS232Device.writtenLog ⟨"COM1".data, 253,
        some ⟨true, [], [], ["@253U?P\\r\n".data]⟩⟩ =
      RS232Device.writtenLog
          ⟨"COM1".data, 253, some ⟨true, [], [["@253ACKTORR\\".data]], []⟩⟩ ++
        [formatCmd 253 "U?P".data] := by
  have h := set_unit_idempotent
    ⟨"COM1".data, 253, some ⟨true, [], [["@253ACKTORR\\".data]], []⟩⟩
    "torr".data
    ⟨"COM1".data, 253, some ⟨true, [], [], ["@253U?P\\r\n".data]⟩⟩
    (by decide)
  exact ⟨h.1, h.2 _ rfl⟩

/-- C7 counterexample: with a transport that answers `NAK` to both unit
queries, `set_pressure_unit` does proceed and does fail — but the error
it fails with wraps the query failure and nowhere names the target
unit, against the claim that the failure is a `UnitSwitchFailed` naming
the target. -/
theorem set_unit_fail_error_no_target :
    (RS232Device.set_pressure_unit
        ⟨"COM1".data, 253,
          some ⟨true, [], [["NAK".data], [], ["NAK".data]], []⟩⟩
        "torr".data).1 =
      .error (.wrapped "COM1".data (.queryUnitFailed "NAK".data)) ∧
    containsSub "TORR".data
      (DevErr.wrapped "COM1".data (.queryUnitFailed "NAK".data)).message =
      false := by
  constructor
  · rfl
  · decide

/-- C7 (amended): if the pre-check unit query fails, `set_pressure_unit`
still proceeds with the write-then-verify sequence; with a live handle
the `U!P,<target>` frame is actually written, the call succeeds exactly
when the post-write re-query yields the target unit, and when the
re-query yields a different unit the failure is the wrapped
unit-switch error naming the target unit and the port (a failed
re-query instead fails with the wrapped query error, which names only
the port). -/
theorem set_unit_precheck_nonfatal (d : RS232Device) (unit : List Char)
    (e : DevErr) (hpre : (d.get_pressure_unit).1 = .error e) :
    d.set_pressure_unit unit =
      ((d.get_pressure_unit).2).unitWriteVerify (pyUpper unit) ∧
    (∀ s, ((d.get_pressure_unit).2).ser = some s →
      formatCmd (d.get_pressure_unit).2.address
        ("U!P,".data ++ pyUpper unit) ∈
        (d.set_pressure_unit unit).2.writtenLog ∧
      ((d.set_pressure_unit unit).1 = .ok () ↔
        ((((d.get_pressure_unit).2.write
          (formatCmd (d.get_pressure_unit).2.address
            ("U!P,".data ++ pyUpper unit))).2.drainTwo).get_pressure_unit).1 =
          .ok (pyUpper unit)) ∧
      (∀ u, ((((d.get_pressure_unit).2.write
          (formatCmd (d.get_pressure_unit).2.address
            ("U!P,".data ++ pyUpper unit))).2.drainTwo).get_pressure_unit).1 =
          .ok u →
        u ≠ pyUpper unit →
        (d.set_pressure_unit unit).1 =
          .error (.wrapped (d.get_pressure_unit).2.port
            (.unitSwitchFailed (d.get_pressure_unit).2.port
              (pyUpper unit))))) := by
  have hset : d.set_pressure_unit unit =
      ((d.get_pressure_unit).2).unitWriteVerify (pyUpper unit) := by
    unfold RS232Device.set_pressure_unit
    cases hg : d.get_pressure_unit with
    | mk res d1 =>
      rw [hg] at hpre
      cases res with
      | error e1 => rfl
      | ok u => cases hpre
  refine ⟨hset, ?_⟩
  intro s hs
  have hspec := unitWriteVerify_spec ((d.get_pressure_unit).2) (pyUpper unit) hs
  rw [hset]
  exact hspec

/-- C7 witness: pre-check answers `NAK` (query fails), the write goes
out, the verify re-query answers TORR, and the call succeeds. -/
theorem set_unit_precheck_nonfatal_witness :
    (RS232Device.set_pressure_unit
        ⟨"COM1".data, 253,
          some ⟨true, [],
            [["NAK".data], ["ACKTORR".data], ["@253ACKTORR\\".data]], []⟩⟩
        "torr".data).1 = .ok () ∧
    formatCmd 253 ("U!P,".data ++ "TORR".data) ∈
      (RS232Device.set_pressure_unit
        ⟨"COM1".data, 253,
          some ⟨true, [],
            [["NAK".data], ["ACKTORR".data], ["@253ACKTORR\\".data]], []⟩⟩
        "torr".data).2.writtenLog := by
  have h := set_unit_precheck_nonfatal
    ⟨"COM1".data, 253,
      some ⟨true, [],
        [["NAK".data], ["ACKTORR".data], ["@253ACKTORR\\".data]], []⟩⟩
    "torr".data (.queryUnitFailed "NAK".data) (by decide)
  have h2 := h.2 ⟨true, [],
    [["ACKTORR".data], ["@253ACKTORR\\".data]],
    ["@253U?P\\r\n".data]⟩ (by decide)
  exact ⟨h2.2.1.mpr (by decide), h2.1⟩

end Digivac
